import Mathlib

/-!
Shallow embedding of `cocotbext-eth`'s GMII driver/monitor
(`src/cocotbext/eth/gmii.py`): the `GmiiFrame` entity, the `GmiiSource`
(driver) and `GmiiSink` (monitor) per-cycle state machines, and the
queue/occupancy bookkeeping, together with theorems settling the spec's
claims about them.

Python exceptions are modelled by `Except PyErr`: a method that raises is a
function returning `Except.error`, and a coroutine whose body raises is a
step function returning `none`.
-/

/-- Python exception kinds raised by the code under verification. -/
inductive PyErr where
  | typeError
  | indexError
  | attributeError
  deriving Repr, DecidableEq

/-- `GmiiFrame` (gmii.py lines 35-47): a byte sequence, optional per-byte
error markers, and an optional receive timestamp.  Bytes and markers are
`Nat` signal values. -/
structure GmiiFrame where
  data : List Nat
  error : Option (List Nat)
  rx_sim_time : Option Nat
  deriving Repr, DecidableEq

namespace GmiiFrame

/-- `GmiiFrame.__init__` applied to an existing frame (lines 41-44): a
fresh copy sharing data, error and timestamp. -/
def copy (f : GmiiFrame) : GmiiFrame :=
  { data := f.data, error := f.error, rx_sim_time := f.rx_sim_time }

/-- Modelled from the spec: `ETH_PREAMBLE` is imported from
`cocotbext/eth/constants.py`, which is not under `src/`; the spec describes
it as a fixed 8-byte well-known synchronization pattern (seven `0x55`
preamble bytes and the `0xD5` start-frame delimiter). -/
def ETH_PREAMBLE : List Nat :=
  List.replicate 7 0x55 ++ [0xD5]

/-- `GmiiFrame.from_payload` (lines 49-53): prepend the preamble to the
payload. -/
def from_payload (payload : List Nat) : GmiiFrame :=
  { data := ETH_PREAMBLE ++ payload, error := none, rx_sim_time := none }

/-- `GmiiFrame.get_preamble` (lines 55-56): `self.data[0:8]`. -/
def get_preamble (f : GmiiFrame) : List Nat :=
  f.data.take 8

/-- `GmiiFrame.get_payload` (lines 58-59): `self.data[8:]`. -/
def get_payload (f : GmiiFrame) : List Nat :=
  f.data.drop 8

/-- `GmiiFrame.normalize` (lines 61-67):
`self.error = self.error[:n] + [self.error[-1]]*(n-len(self.error))` when
`error` is present (Python evaluates `self.error[-1]` eagerly, so an empty
error list raises `IndexError`), and `[0]*n` when absent. -/
def normalize (f : GmiiFrame) : Except PyErr GmiiFrame :=
  let n := f.data.length
  match f.error with
  | some e =>
      match e.getLast? with
      | none => .error .indexError
      | some last =>
          .ok { f with error := some (e.take n ++ List.replicate (n - e.length) last) }
  | none => .ok { f with error := some (List.replicate n 0) }

/-- `GmiiFrame.compact` (lines 69-71): `if not any(self.error): self.error
= None`.  `any(None)` raises `TypeError`. -/
def compact (f : GmiiFrame) : Except PyErr GmiiFrame :=
  match f.error with
  | none => .error .typeError
  | some e =>
      if e.any (fun x => x ≠ 0) then .ok f
      else .ok { f with error := none }

/-- `GmiiFrame.__len__` (lines 84-85). -/
def length (f : GmiiFrame) : Nat :=
  f.data.length

end GmiiFrame

/-! ## Bus and state machines

`GmiiSource._run` and `GmiiSink._run` are infinite cooperative loops; one
loop iteration (one clock cycle) becomes a step function.  The bus signals
(`d`, `er`, `en`) hold their previous value on cycles where nothing drives
them.  A step returns `none` when the Python body would raise. -/

/-- The driven bus signals: `d` (8-bit data), `er` (error), `en`
(enable/data-valid, the `dv` alias points at the same signal). -/
structure BusState where
  d : Nat
  er : Nat
  en : Nat
  deriving Repr, DecidableEq

/-- Which optional source bus signals are wired (`_optional_signals =
["er", "en", "dv"]`; `_run` only ever drives `er` and `en`). -/
structure SrcCfg where
  has_er : Bool
  has_en : Bool
  deriving Repr, DecidableEq

/-- Which optional sink bus signals are wired.  `has_dv` means `self.bus.dv`
is resolved: either `dv` is wired or `en` is wired (line 237 aliases `dv`
to `en`). -/
structure SnkCfg where
  has_er : Bool
  has_dv : Bool
  deriving Repr, DecidableEq

/-- `GmiiSource`'s mutable state: the frame queue, the in-flight frame of
`_run`, the inter-frame-gap countdown, the `active` flag, the configured
`ifg`, and the occupancy counters. -/
structure SourceState where
  queue : List GmiiFrame
  frame : Option GmiiFrame
  ifg_cnt : Nat
  active : Bool
  ifg : Nat
  queue_occupancy_bytes : Int
  queue_occupancy_frames : Int
  deriving Repr, DecidableEq

/-- `GmiiSink`'s mutable state: the frame being assembled by `_run`, the
queue of completed frames, the `active` flag, and the occupancy counters. -/
structure SinkState where
  frame : Option GmiiFrame
  queue : List GmiiFrame
  active : Bool
  queue_occupancy_bytes : Int
  queue_occupancy_frames : Int
  deriving Repr, DecidableEq

namespace GmiiSource

/-- `GmiiSource.__init__` state (lines 106-118): empty queue, ifg 12,
zero occupancy. -/
def init : SourceState :=
  { queue := [], frame := none, ifg_cnt := 0, active := false, ifg := 12,
    queue_occupancy_bytes := 0, queue_occupancy_frames := 0 }

/-- `GmiiSource.send` (lines 134-138): wrap in a fresh `GmiiFrame`, bump
the occupancy counters, append to the queue. -/
def send (s : SourceState) (f : GmiiFrame) : SourceState :=
  let fr := f.copy
  { s with
    queue_occupancy_bytes := s.queue_occupancy_bytes + fr.length,
    queue_occupancy_frames := s.queue_occupancy_frames + 1,
    queue := s.queue ++ [fr] }

/-- `GmiiSource.empty` (lines 143-144): `not self.queue`. -/
def empty (s : SourceState) : Bool :=
  s.queue.isEmpty

/-- `GmiiSource.idle` (lines 146-147): `self.empty() and not self.active`. -/
def idle (s : SourceState) : Bool :=
  empty s && !s.active

end GmiiSource

/-- Lines 174-186 of `GmiiSource._run`: count down the inter-frame gap,
else dequeue and normalize the next frame (decrementing occupancy) when
none is in flight.  `none` models `normalize` raising. -/
def sourceDequeue (s : SourceState) : Option SourceState :=
  if s.ifg_cnt > 0 then
    some { s with ifg_cnt := s.ifg_cnt - 1 }
  else
    match s.frame, s.queue with
    | none, f :: rest =>
        match f.normalize with
        | .ok nf =>
            some { s with
              queue := rest,
              queue_occupancy_bytes := s.queue_occupancy_bytes - f.length,
              queue_occupancy_frames := s.queue_occupancy_frames - 1,
              frame := some nf, active := true }
        | .error _ => none
    | _, _ => some s

/-- Lines 188-202 of `GmiiSource._run`: with a frame in flight, pop one
byte (`IndexError` when data is empty), pop its error marker when `er` is
wired (`AttributeError`/`IndexError` when the error list is absent/empty),
drive `en <= 1` (`TypeError` when `en` is not wired), and retire the frame
into the gap countdown when its data runs out; with no frame in flight,
drive the idle pattern and clear `active`. -/
def sourceDrive (cfg : SrcCfg) (s : SourceState) (bus : BusState) :
    Option (SourceState × BusState) :=
  match s.frame with
  | some f =>
      match f.data with
      | [] => none
      | b :: brest =>
          if cfg.has_er then
            match f.error with
            | some (e :: erest) =>
                if cfg.has_en then
                  if brest.isEmpty then
                    some ({ s with frame := none, ifg_cnt := max s.ifg 1 },
                      { d := b, er := e, en := 1 })
                  else
                    some ({ s with frame := some ⟨brest, some erest, f.rx_sim_time⟩ },
                      { d := b, er := e, en := 1 })
                else none
            | _ => none
          else
            if cfg.has_en then
              if brest.isEmpty then
                some ({ s with frame := none, ifg_cnt := max s.ifg 1 },
                  { d := b, er := bus.er, en := 1 })
              else
                some ({ s with frame := some ⟨brest, f.error, f.rx_sim_time⟩ },
                  { d := b, er := bus.er, en := 1 })
            else none
  | none =>
      if cfg.has_en then
        some ({ s with active := false },
          { d := 0, er := if cfg.has_er then 0 else bus.er, en := 0 })
      else none

/-- One iteration of `GmiiSource._run`'s loop (lines 158-202), i.e. one
clock cycle.  Reset (sampled first) flushes the in-flight frame and drives
the idle pattern — `self.bus.en <= 0` on line 169 is unguarded, so an
absent `en` raises `TypeError`.  A de-asserted enable holds all state and
bus values. -/
def sourceStep (cfg : SrcCfg) (rst en_in : Bool) (s : SourceState)
    (bus : BusState) : Option (SourceState × BusState) :=
  if rst then
    if cfg.has_en then
      some ({ s with frame := none, ifg_cnt := 0, active := false },
        { d := 0, er := if cfg.has_er then 0 else bus.er, en := 0 })
    else none
  else if en_in then
    match sourceDequeue s with
    | none => none
    | some s2 => sourceDrive cfg s2 bus
  else
    some (s, bus)

namespace GmiiSink

/-- `GmiiSink.__init__` state (lines 220-230). -/
def init : SinkState :=
  { frame := none, queue := [], active := false,
    queue_occupancy_bytes := 0, queue_occupancy_frames := 0 }

/-- `GmiiSink.recv` (lines 243-249): pop the oldest completed frame and
decrement the occupancy counters, or return `None` on an empty queue. -/
def recv (s : SinkState) : Option GmiiFrame × SinkState :=
  match s.queue with
  | f :: rest =>
      (some f, { s with
        queue := rest,
        queue_occupancy_bytes := s.queue_occupancy_bytes - f.length,
        queue_occupancy_frames := s.queue_occupancy_frames - 1 })
  | [] => (none, s)

/-- `GmiiSink.empty` (lines 254-255). -/
def empty (s : SinkState) : Bool :=
  s.queue.isEmpty

/-- `GmiiSink.idle` (lines 257-258): `not self.active`. -/
def idle (s : SinkState) : Bool :=
  !s.active

end GmiiSink

/-- One iteration of `GmiiSink._run`'s loop (lines 273-311), i.e. one
clock cycle sampling the bus values `bus` at simulation time `t`.  Reading
`self.bus.dv.value` (line 284) raises when neither `en` nor `dv` is wired;
`er` absent reads as 0.  Start-of-frame opens a fresh frame stamped with
`t` and the shared append (lines 307-309) pushes the sampled byte/marker;
end-of-frame compacts and enqueues, bumping the occupancy counters. -/
def sinkStep (cfg : SnkCfg) (rst en_in : Bool) (bus : BusState) (t : Nat)
    (s : SinkState) : Option SinkState :=
  if rst then
    some { s with frame := none, active := false }
  else if en_in then
    if cfg.has_dv then
      -- er_val = 0 if self.bus.er is None else self.bus.er.value
      match s.frame with
      | none =>
          if bus.en ≠ 0 then
            some { s with
              frame := some ⟨[bus.d], some [if cfg.has_er then bus.er else 0], some t⟩ }
          else
            some s
      | some f =>
          if bus.en ≠ 0 then
            match f.error with
            | some e =>
                some { s with
                  frame := some ⟨f.data ++ [bus.d],
                    some (e ++ [if cfg.has_er then bus.er else 0]), f.rx_sim_time⟩ }
            | none => none
          else
            match f.compact with
            | .ok cf =>
                some { s with
                  queue_occupancy_bytes := s.queue_occupancy_bytes + cf.length,
                  queue_occupancy_frames := s.queue_occupancy_frames + 1,
                  queue := s.queue ++ [cf],
                  frame := none }
            | .error _ => none
    else none
  else
    some s

/-- A driver and a monitor wired to the same clock and the same bus
signals: the driver's writes at a rising edge are what the monitor samples
in the read-only phase of the same timestep. -/
structure LinkState where
  src : SourceState
  bus : BusState
  snk : SinkState
  deriving Repr, DecidableEq

/-- Both optional signals wired on the source side. -/
def fullSrcCfg : SrcCfg := ⟨true, true⟩

/-- Both optional signals wired on the sink side. -/
def fullSnkCfg : SnkCfg := ⟨true, true⟩

/-- Bus signals as initialized by `GmiiSource.__init__`
(`setimmediatevalue(0)`, lines 120-130). -/
def initBus : BusState := ⟨0, 0, 0⟩

/-- One clock cycle of the connected pair at simulation time `t`: the
source drives the bus at the edge, then the sink samples the driven values
in the read-only phase of the same timestep. -/
def linkStep (scfg : SrcCfg) (kcfg : SnkCfg) (rst en_in : Bool) (t : Nat)
    (st : LinkState) : Option LinkState :=
  match sourceStep scfg rst en_in st.src st.bus with
  | none => none
  | some (s', b') =>
      match sinkStep kcfg rst en_in b' t st.snk with
      | none => none
      | some k' => some ⟨s', b', k'⟩

/-- Run the connected pair for `n` cycles starting at simulation time `t`,
with reset de-asserted and enable held true throughout. -/
def linkRun (scfg : SrcCfg) (kcfg : SnkCfg) : Nat → Nat → LinkState →
    Option LinkState
  | 0, _, st => some st
  | n + 1, t, st =>
      match linkStep scfg kcfg false true t st with
      | none => none
      | some st' => linkRun scfg kcfg n (t + 1) st'

/-- Run the source alone for `n` cycles with reset de-asserted and enable
held true, collecting the bus values of each cycle in order. -/
def sourceRunTrace (cfg : SrcCfg) : Nat → SourceState × BusState →
    Option (SourceState × BusState × List BusState)
  | 0, sb => some (sb.1, sb.2, [])
  | n + 1, sb =>
      match sourceStep cfg false true sb.1 sb.2 with
      | none => none
      | some (s', b') =>
          match sourceRunTrace cfg n (s', b') with
          | none => none
          | some (s'', b'', tr) => some (s'', b'', b' :: tr)

/-- Driver state invariant: whenever a frame is in flight, the `active`
flag is set.  It holds initially and every step preserves it. -/
def srcActiveInv (s : SourceState) : Prop :=
  s.frame ≠ none → s.active = true

/-- The driver queue's counters agree with its contents: byte counter =
sum of frame lengths, frame counter = number of frames. -/
def srcOccInv (s : SourceState) : Prop :=
  s.queue_occupancy_bytes = (s.queue.map fun f => (f.length : Int)).sum ∧
  s.queue_occupancy_frames = s.queue.length

/-- The monitor queue's counters agree with its contents. -/
def snkOccInv (k : SinkState) : Prop :=
  k.queue_occupancy_bytes = (k.queue.map fun f => (f.length : Int)).sum ∧
  k.queue_occupancy_frames = k.queue.length

/-- Both queues' counters agree with their contents. -/
def linkOccInv (st : LinkState) : Prop :=
  srcOccInv st.src ∧ snkOccInv st.snk

/-- An arbitrary interleaving of the queue-touching operations: `send` on
the driver, one clock cycle of the connected pair (covering the driver's
internal dequeue and the monitor's internal enqueue, under arbitrary
reset/enable inputs), and `recv` on the monitor. -/
inductive QOp where
  | send (f : GmiiFrame)
  | step (rst en_in : Bool) (t : Nat)
  | recv

/-- Apply one interleaved operation. -/
def applyOp (op : QOp) (st : LinkState) : Option LinkState :=
  match op with
  | .send f => some { st with src := GmiiSource.send st.src f }
  | .step rst en_in t => linkStep fullSrcCfg fullSnkCfg rst en_in t st
  | .recv => some { st with snk := (GmiiSink.recv st.snk).2 }

/-- Apply a sequence of interleaved operations. -/
def applyOps : List QOp → LinkState → Option LinkState
  | [], st => some st
  | op :: ops, st =>
      match applyOp op st with
      | none => none
      | some st' => applyOps ops st'

/-- Bus values during a cycle that drives byte `b` of an absent-error
frame: data `b`, error 0, valid asserted. -/
def driveOut (b : Nat) : BusState := ⟨b, 0, 1⟩

/-- Bus values during an idle (gap) cycle: valid de-asserted. -/
def idleOut : BusState := ⟨0, 0, 0⟩

/-- Driver state in the middle of transmitting: `r` bytes remain, with the
matching all-zero error tail of a normalized absent-error frame. -/
def midSrc (r : List Nat) (rt : Option Nat) (q : List GmiiFrame) (a : Bool)
    (g : Nat) (ob of : Int) : SourceState :=
  ⟨q, some ⟨r, some (List.replicate r.length 0), rt⟩, 0, a, g, ob, of⟩

/-- Driver state right after a frame's last byte: gap countdown loaded
with `max g 1`, `active` still set. -/
def postSrc (q : List GmiiFrame) (a : Bool) (g : Nat) (ob of : Int) : SourceState :=
  ⟨q, none, max g 1, a, g, ob, of⟩

/-- Monitor state while assembling a frame: bytes `sent` received so far,
all error markers sampled 0, started at simulation time `t0`. -/
def snkMid (sent : List Nat) (t0 : Nat) (sq : List GmiiFrame) (sa : Bool)
    (sob sof : Int) : SinkState :=
  ⟨some ⟨sent, some (List.replicate sent.length 0), some t0⟩, sq, sa, sob, sof⟩

/-! ## Helper lemmas -/

/-- Unfolding lemma: `compact` on a present error list. -/
lemma GmiiFrame.compact_some (f : GmiiFrame) (e : List Nat) (he : f.error = some e) :
    f.compact = if e.any (fun x => x ≠ 0) then Except.ok f
      else Except.ok { f with error := none } := by
  obtain ⟨d, err, rt⟩ := f
  cases he
  rfl

/-- Unfolding lemma: `compact` on an absent error raises `TypeError`. -/
lemma GmiiFrame.compact_none (f : GmiiFrame) (he : f.error = none) :
    f.compact = Except.error PyErr.typeError := by
  obtain ⟨d, err, rt⟩ := f
  cases he
  rfl

lemma sourceDequeue_activeInv {s s2 : SourceState}
    (h : sourceDequeue s = some s2) (hinv : srcActiveInv s) : srcActiveInv s2 := by
  unfold sourceDequeue at h
  split at h
  · cases h
    exact hinv
  · split at h
    · split at h
      · cases h
        intro _
        rfl
      · cases h
    · cases h
      exact hinv

lemma sourceDrive_activeInv {cfg : SrcCfg} {s s' : SourceState} {bus bus' : BusState}
    (h : sourceDrive cfg s bus = some (s', bus')) (hinv : srcActiveInv s) :
    srcActiveInv s' := by
  unfold sourceDrive at h
  split at h
  · rename_i f hfr
    split at h
    · cases h
    · split at h
      · split at h
        · split at h
          · split at h
            · cases h
              intro hf
              simp at hf
            · cases h
              intro _
              exact hinv (by simp [hfr])
          · cases h
        · cases h
      · split at h
        · split at h
          · cases h
            intro hf
            simp at hf
          · cases h
            intro _
            exact hinv (by simp [hfr])
        · cases h
  · rename_i hfr
    split at h
    · cases h
      intro hf
      simp at hf
      exact absurd hfr hf
    · cases h

lemma sourceStep_activeInv {cfg : SrcCfg} {rst en_in : Bool} {s s' : SourceState}
    {bus bus' : BusState}
    (h : sourceStep cfg rst en_in s bus = some (s', bus')) (hinv : srcActiveInv s) :
    srcActiveInv s' := by
  unfold sourceStep at h
  split at h
  · split at h
    · cases h
      intro hf
      simp at hf
    · cases h
  · split at h
    · cases hdq : sourceDequeue s with
      | none =>
          rw [hdq] at h
          cases h
      | some s2 =>
          rw [hdq] at h
          exact sourceDrive_activeInv h (sourceDequeue_activeInv hdq hinv)
    · cases h
      exact hinv

lemma compact_data {f cf : GmiiFrame} (h : f.compact = Except.ok cf) :
    cf.data = f.data := by
  unfold GmiiFrame.compact at h
  split at h
  · cases h
  · split at h
    · cases h
      rfl
    · cases h
      rfl

lemma send_occInv {s : SourceState} (f : GmiiFrame) (hinv : srcOccInv s) :
    srcOccInv (GmiiSource.send s f) := by
  obtain ⟨h1, h2⟩ := hinv
  unfold GmiiSource.send srcOccInv
  simp only [GmiiFrame.copy, List.map_append, List.sum_append, List.length_append,
    List.map_cons, List.map_nil, List.sum_cons, List.sum_nil, List.length_cons,
    List.length_nil]
  constructor
  · rw [h1]; push_cast; ring
  · rw [h2]; push_cast; ring

lemma recv_occInv {k : SinkState} (hinv : snkOccInv k) :
    snkOccInv (GmiiSink.recv k).2 := by
  obtain ⟨kf, kq, ka, kob, kof⟩ := k
  cases kq with
  | nil => exact hinv
  | cons f rest =>
      obtain ⟨h1, h2⟩ := hinv
      simp only [GmiiSink.recv, snkOccInv, List.map_cons, List.sum_cons,
        List.length_cons] at h1 h2 ⊢
      constructor
      · rw [h1]; push_cast; ring
      · rw [h2]; push_cast; ring

lemma sourceDequeue_occInv {s s2 : SourceState}
    (h : sourceDequeue s = some s2) (hinv : srcOccInv s) : srcOccInv s2 := by
  unfold sourceDequeue at h
  split at h
  · cases h
    exact hinv
  · split at h
    · rename_i f rest hfr hq
      split at h
      · cases h
        obtain ⟨h1, h2⟩ := hinv
        rw [hq] at h1 h2
        simp only [List.map_cons, List.sum_cons, List.length_cons] at h1 h2
        constructor
        · simp only [srcOccInv]
          rw [h1]; push_cast; ring
        · rw [h2]; push_cast; ring
      · cases h
    · cases h
      exact hinv

lemma sourceDrive_queueFields {cfg : SrcCfg} {s s' : SourceState}
    {bus bus' : BusState} (h : sourceDrive cfg s bus = some (s', bus')) :
    s'.queue = s.queue ∧
    s'.queue_occupancy_bytes = s.queue_occupancy_bytes ∧
    s'.queue_occupancy_frames = s.queue_occupancy_frames := by
  unfold sourceDrive at h
  split at h
  · split at h
    · cases h
    · split at h
      · split at h
        · split at h
          · split at h
            · cases h
              exact ⟨rfl, rfl, rfl⟩
            · cases h
              exact ⟨rfl, rfl, rfl⟩
          · cases h
        · cases h
      · split at h
        · split at h
          · cases h
            exact ⟨rfl, rfl, rfl⟩
          · cases h
            exact ⟨rfl, rfl, rfl⟩
        · cases h
  · split at h
    · cases h
      exact ⟨rfl, rfl, rfl⟩
    · cases h

lemma sourceStep_occInv {cfg : SrcCfg} {rst en_in : Bool} {s s' : SourceState}
    {bus bus' : BusState}
    (h : sourceStep cfg rst en_in s bus = some (s', bus')) (hinv : srcOccInv s) :
    srcOccInv s' := by
  unfold sourceStep at h
  split at h
  · split at h
    · cases h
      exact hinv
    · cases h
  · split at h
    · cases hdq : sourceDequeue s with
      | none =>
          rw [hdq] at h
          cases h
      | some s2 =>
          rw [hdq] at h
          have h2 := sourceDequeue_occInv hdq hinv
          obtain ⟨hq, hob, hof⟩ := sourceDrive_queueFields h
          exact ⟨by rw [hob, hq]; exact h2.1, by rw [hof, hq]; exact h2.2⟩
    · cases h
      exact hinv

lemma sinkStep_occInv {cfg : SnkCfg} {rst en_in : Bool} {bus : BusState} {t : Nat}
    {k k' : SinkState} (h : sinkStep cfg rst en_in bus t k = some k')
    (hinv : snkOccInv k) : snkOccInv k' := by
  unfold sinkStep at h
  split at h
  · cases h
    exact hinv
  · split at h
    · split at h
      · split at h
        · split at h
          · cases h
            exact hinv
          · cases h
            exact hinv
        · split at h
          · split at h
            · cases h
              exact hinv
            · cases h
          · split at h
            · rename_i f hfr cf hcp
              cases h
              obtain ⟨h1, h2⟩ := hinv
              constructor
              · simp only [snkOccInv, List.map_append, List.sum_append,
                  List.map_cons, List.map_nil, List.sum_cons, List.sum_nil]
                rw [h1]; push_cast; ring
              · simp only [List.length_append, List.length_cons, List.length_nil]
                rw [h2]; push_cast; ring
            · cases h
      · cases h
    · cases h
      exact hinv

lemma applyOp_occInv {op : QOp} {st st' : LinkState}
    (h : applyOp op st = some st') (hinv : linkOccInv st) : linkOccInv st' := by
  cases op with
  | send f =>
      cases h
      exact ⟨send_occInv f hinv.1, hinv.2⟩
  | step rst en_in t =>
      simp only [applyOp] at h
      unfold linkStep at h
      cases hs : sourceStep fullSrcCfg rst en_in st.src st.bus with
      | none =>
          rw [hs] at h
          cases h
      | some sb =>
          obtain ⟨s', b'⟩ := sb
          rw [hs] at h
          dsimp only at h
          cases hk : sinkStep fullSnkCfg rst en_in b' t st.snk with
          | none =>
              rw [hk] at h
              cases h
          | some k' =>
              rw [hk] at h
              cases h
              exact ⟨sourceStep_occInv hs hinv.1, sinkStep_occInv hk hinv.2⟩
  | recv =>
      cases h
      exact ⟨hinv.1, recv_occInv hinv.2⟩

lemma replicate_zero_snoc (n : Nat) :
    List.replicate n (0 : Nat) ++ [0] = 0 :: List.replicate n 0 := by
  rw [← List.replicate_succ', List.replicate_succ]

lemma any_replicate_zero (n : Nat) :
    (List.replicate n (0 : Nat)).any (fun x => x ≠ 0) = false := by
  induction n with
  | zero => rfl
  | succ k ih => simp [List.replicate_succ, ih]

/-- One-step unfolding of `sourceRunTrace` (unfolds only the outermost
cycle). -/
lemma sourceRunTrace_succ (cfg : SrcCfg) (n : Nat) (sb : SourceState × BusState) :
    sourceRunTrace cfg (n + 1) sb
      = match sourceStep cfg false true sb.1 sb.2 with
        | none => none
        | some (s', b') =>
            match sourceRunTrace cfg n (s', b') with
            | none => none
            | some (s'', b'', tr) => some (s'', b'', b' :: tr) := rfl

lemma sourceRunTrace_add {m n : Nat} {sb : SourceState × BusState}
    {s : SourceState} {b : BusState} {tr1 : List BusState}
    {s' : SourceState} {b' : BusState} {tr2 : List BusState}
    (h1 : sourceRunTrace fullSrcCfg m sb = some (s, b, tr1))
    (h2 : sourceRunTrace fullSrcCfg n (s, b) = some (s', b', tr2)) :
    sourceRunTrace fullSrcCfg (m + n) sb = some (s', b', tr1 ++ tr2) := by
  induction m generalizing sb tr1 with
  | zero =>
      simp only [sourceRunTrace] at h1
      cases h1
      rw [Nat.zero_add, List.nil_append]
      exact h2
  | succ m ih =>
      rw [Nat.succ_add]
      simp only [sourceRunTrace] at h1 ⊢
      cases hstep : sourceStep fullSrcCfg false true sb.1 sb.2 with
      | none =>
          rw [hstep] at h1
          simp at h1
      | some sb1 =>
          obtain ⟨s1, b1⟩ := sb1
          rw [hstep] at h1
          dsimp only at h1 ⊢
          cases hrt : sourceRunTrace fullSrcCfg m (s1, b1) with
          | none =>
              rw [hrt] at h1
              cases h1
          | some r3 =>
              obtain ⟨s2, b2, tr⟩ := r3
              rw [hrt] at h1
              dsimp only at h1
              cases h1
              rw [ih hrt]
              rfl

lemma sourceRunTrace_transmit (r : List Nat) (b : Nat) (rt : Option Nat)
    (q : List GmiiFrame) (a : Bool) (g : Nat) (ob of : Int) (bus : BusState) :
    sourceRunTrace fullSrcCfg (r.length + 1) (midSrc (b :: r) rt q a g ob of, bus)
      = some (postSrc q a g ob of,
          driveOut ((b :: r).getLast (List.cons_ne_nil b r)),
          (b :: r).map driveOut) := by
  induction r generalizing b bus with
  | nil =>
      simp [sourceRunTrace, sourceStep, sourceDequeue, sourceDrive, midSrc, postSrc,
        driveOut, fullSrcCfg]
  | cons c r3 ih =>
      rw [List.length_cons, sourceRunTrace_succ]
      have hstep : sourceStep fullSrcCfg false true (midSrc (b :: c :: r3) rt q a g ob of) bus
          = some (midSrc (c :: r3) rt q a g ob of, driveOut b) := by
        simp [sourceStep, sourceDequeue, sourceDrive, midSrc, driveOut, fullSrcCfg,
          List.replicate_succ]
      dsimp only
      rw [hstep]
      dsimp only
      rw [ih c (driveOut b)]
      dsimp only
      rw [List.getLast_cons_cons]
      simp [List.map_cons]

lemma sourceRunTrace_gap (g : Nat) (hg : 1 ≤ g) (q : List GmiiFrame) (a : Bool)
    (gcfg : Nat) (ob of : Int) (bus : BusState) :
    sourceRunTrace fullSrcCfg g (⟨q, none, g, a, gcfg, ob, of⟩, bus)
      = some (⟨q, none, 0, false, gcfg, ob, of⟩, idleOut, List.replicate g idleOut) := by
  induction g generalizing a bus with
  | zero => omega
  | succ k ih =>
      rw [sourceRunTrace_succ]
      have hstep : sourceStep fullSrcCfg false true
          (⟨q, none, k + 1, a, gcfg, ob, of⟩ : SourceState) bus
          = some (⟨q, none, k, false, gcfg, ob, of⟩, idleOut) := by
        simp [sourceStep, sourceDequeue, sourceDrive, idleOut, fullSrcCfg]
      dsimp only
      rw [hstep]
      dsimp only
      cases k with
      | zero =>
          simp [sourceRunTrace]
      | succ k2 =>
          rw [ih (by omega) false idleOut]
          simp [List.replicate_succ]

lemma sourceRunTrace_start (b0 : Nat) (B : List Nat) (rt : Option Nat)
    (q : List GmiiFrame) (a : Bool) (g : Nat) (ob of : Int) (bus : BusState) :
    ∃ s', sourceRunTrace fullSrcCfg 1
        (⟨⟨b0 :: B, none, rt⟩ :: q, none, 0, a, g, ob, of⟩, bus)
      = some (s', driveOut b0, [driveOut b0]) := by
  cases B with
  | nil =>
      exact ⟨⟨q, none, max g 1, true, g, ob - 1, of - 1⟩, by
        simp [sourceRunTrace, sourceStep, sourceDequeue, sourceDrive,
          GmiiFrame.normalize, driveOut, fullSrcCfg, GmiiFrame.length]⟩
  | cons c B2 =>
      refine ⟨⟨q, some ⟨c :: B2, some (List.replicate (c :: B2).length 0), rt⟩, 0, true, g,
        ob - ((B2.length : Int) + 2), of - 1⟩, ?_⟩
      simp [sourceRunTrace, sourceStep, sourceDequeue, sourceDrive,
        GmiiFrame.normalize, driveOut, fullSrcCfg, GmiiFrame.length,
        List.replicate_succ]
      ring

lemma sourceRunTrace_frame (a0 : Nat) (A : List Nat) (rt : Option Nat)
    (q : List GmiiFrame) (a : Bool) (g : Nat) (ob of : Int) (bus : BusState) :
    sourceRunTrace fullSrcCfg (A.length + 1)
        (⟨⟨a0 :: A, none, rt⟩ :: q, none, 0, a, g, ob, of⟩, bus)
      = some (postSrc q true g (ob - ((A.length : Int) + 1)) (of - 1),
          driveOut ((a0 :: A).getLast (List.cons_ne_nil a0 A)),
          (a0 :: A).map driveOut) := by
  cases A with
  | nil =>
      simp [sourceRunTrace, sourceStep, sourceDequeue, sourceDrive, GmiiFrame.normalize,
        postSrc, driveOut, fullSrcCfg, GmiiFrame.length]
  | cons a1 A2 =>
      rw [sourceRunTrace_succ]
      have hstep : sourceStep fullSrcCfg false true
          (⟨⟨a0 :: a1 :: A2, none, rt⟩ :: q, none, 0, a, g, ob, of⟩ : SourceState) bus
          = some (midSrc (a1 :: A2) rt q true g (ob - ((A2.length : Int) + 2)) (of - 1),
              driveOut a0) := by
        simp [sourceStep, sourceDequeue, sourceDrive, GmiiFrame.normalize, midSrc,
          driveOut, fullSrcCfg, List.replicate_succ, GmiiFrame.length]
        ring
      dsimp only
      rw [hstep]
      dsimp only
      rw [show (a1 :: A2).length = A2.length + 1 from rfl]
      rw [sourceRunTrace_transmit A2 a1 rt q true g _ _ (driveOut a0)]
      dsimp only
      rw [List.getLast_cons_cons]
      simp [List.map_cons]
      ring_nf

/-- One-step unfolding of `linkRun` (unfolds only the outermost cycle). -/
lemma linkRun_succ (sc : SrcCfg) (kc : SnkCfg) (n t : Nat) (st : LinkState) :
    linkRun sc kc (n + 1) t st
      = match linkStep sc kc false true t st with
        | none => none
        | some st' => linkRun sc kc n (t + 1) st' := rfl

lemma linkRun_add {m n t : Nat} {st st1 st2 : LinkState}
    (h1 : linkRun fullSrcCfg fullSnkCfg m t st = some st1)
    (h2 : linkRun fullSrcCfg fullSnkCfg n (t + m) st1 = some st2) :
    linkRun fullSrcCfg fullSnkCfg (m + n) t st = some st2 := by
  induction m generalizing t st with
  | zero =>
      simp only [linkRun] at h1
      cases h1
      rw [Nat.add_zero] at h2
      rw [Nat.zero_add]
      exact h2
  | succ m ih =>
      rw [Nat.succ_add, linkRun_succ]
      rw [linkRun_succ] at h1
      cases hstep : linkStep fullSrcCfg fullSnkCfg false true t st with
      | none =>
          rw [hstep] at h1
          cases h1
      | some stm =>
          rw [hstep] at h1
          dsimp only at h1 ⊢
          refine ih h1 ?_
          rw [show t + 1 + m = t + (m + 1) by omega]
          exact h2

lemma linkRun_transmit (r : List Nat) (b : Nat) (rt : Option Nat)
    (q : List GmiiFrame) (a : Bool) (g : Nat) (ob of : Int) (bus : BusState)
    (sent : List Nat) (t t0 : Nat) (sq : List GmiiFrame) (sa : Bool) (sob sof : Int) :
    linkRun fullSrcCfg fullSnkCfg (r.length + 1) t
        ⟨midSrc (b :: r) rt q a g ob of, bus, snkMid sent t0 sq sa sob sof⟩
      = some ⟨postSrc q a g ob of,
          driveOut ((b :: r).getLast (List.cons_ne_nil b r)),
          snkMid (sent ++ b :: r) t0 sq sa sob sof⟩ := by
  induction r generalizing b bus sent t with
  | nil =>
      rw [linkRun_succ]
      have hstep : linkStep fullSrcCfg fullSnkCfg false true t
          ⟨midSrc [b] rt q a g ob of, bus, snkMid sent t0 sq sa sob sof⟩
          = some ⟨postSrc q a g ob of, driveOut b, snkMid (sent ++ [b]) t0 sq sa sob sof⟩ := by
        simp [linkStep, sourceStep, sourceDequeue, sourceDrive, sinkStep, midSrc,
          postSrc, snkMid, driveOut, fullSrcCfg, fullSnkCfg, List.replicate_succ']
      rw [hstep]
      simp [linkRun]
  | cons c r3 ih =>
      rw [List.length_cons, linkRun_succ]
      have hstep : linkStep fullSrcCfg fullSnkCfg false true t
          ⟨midSrc (b :: c :: r3) rt q a g ob of, bus, snkMid sent t0 sq sa sob sof⟩
          = some ⟨midSrc (c :: r3) rt q a g ob of, driveOut b,
              snkMid (sent ++ [b]) t0 sq sa sob sof⟩ := by
        simp [linkStep, sourceStep, sourceDequeue, sourceDrive, sinkStep, midSrc,
          snkMid, driveOut, fullSrcCfg, fullSnkCfg, List.replicate_succ,
          List.replicate_succ', replicate_zero_snoc]
      rw [hstep]
      dsimp only
      rw [ih c (driveOut b) (sent ++ [b]) (t + 1)]
      rw [List.getLast_cons_cons]
      simp

lemma linkRun_frame (a0 : Nat) (A : List Nat) (rt : Option Nat)
    (q : List GmiiFrame) (a : Bool) (g : Nat) (ob of : Int) (bus : BusState)
    (t : Nat) (sq : List GmiiFrame) (sa : Bool) (sob sof : Int) :
    linkRun fullSrcCfg fullSnkCfg (A.length + 1) t
        ⟨⟨⟨a0 :: A, none, rt⟩ :: q, none, 0, a, g, ob, of⟩, bus,
          ⟨none, sq, sa, sob, sof⟩⟩
      = some ⟨postSrc q true g (ob - ((A.length : Int) + 1)) (of - 1),
          driveOut ((a0 :: A).getLast (List.cons_ne_nil a0 A)),
          snkMid (a0 :: A) t sq sa sob sof⟩ := by
  cases A with
  | nil =>
      rw [linkRun_succ]
      have hstep : linkStep fullSrcCfg fullSnkCfg false true t
          ⟨⟨⟨[a0], none, rt⟩ :: q, none, 0, a, g, ob, of⟩, bus, ⟨none, sq, sa, sob, sof⟩⟩
          = some ⟨postSrc q true g (ob - 1) (of - 1), driveOut a0,
              snkMid [a0] t sq sa sob sof⟩ := by
        simp [linkStep, sourceStep, sourceDequeue, sourceDrive, sinkStep,
          GmiiFrame.normalize, GmiiFrame.length, postSrc, snkMid, driveOut,
          fullSrcCfg, fullSnkCfg]
      rw [hstep]
      simp [linkRun]
  | cons a1 A2 =>
      rw [List.length_cons, linkRun_succ]
      have hstep : linkStep fullSrcCfg fullSnkCfg false true t
          ⟨⟨⟨a0 :: a1 :: A2, none, rt⟩ :: q, none, 0, a, g, ob, of⟩, bus,
            ⟨none, sq, sa, sob, sof⟩⟩
          = some ⟨midSrc (a1 :: A2) rt q true g (ob - ((A2.length : Int) + 2)) (of - 1),
              driveOut a0, snkMid [a0] t sq sa sob sof⟩ := by
        simp [linkStep, sourceStep, sourceDequeue, sourceDrive, sinkStep,
          GmiiFrame.normalize, GmiiFrame.length, midSrc, snkMid, driveOut,
          fullSrcCfg, fullSnkCfg, List.replicate_succ]
        ring
      rw [hstep]
      dsimp only
      rw [linkRun_transmit A2 a1 rt q true g _ _ (driveOut a0) [a0] (t + 1) t]
      rw [List.getLast_cons_cons]
      simp only [List.singleton_append]
      have harith : (ob - ((A2.length : Int) + 2)) = ob - (((A2.length + 1 : Nat) : Int) + 1) := by
        push_cast
        ring
      rw [harith]

lemma linkRun_flush (full : List Nat) (t t0 : Nat) (g : Nat) (q : List GmiiFrame)
    (a : Bool) (gcfg : Nat) (ob of : Int) (bus : BusState) (sq : List GmiiFrame)
    (sa : Bool) (sob sof : Int) :
    linkRun fullSrcCfg fullSnkCfg 1 t
        ⟨⟨q, none, g + 1, a, gcfg, ob, of⟩, bus, snkMid full t0 sq sa sob sof⟩
      = some ⟨⟨q, none, g, false, gcfg, ob, of⟩, idleOut,
          ⟨none, sq ++ [⟨full, none, some t0⟩], sa, sob + (full.length : Int), sof + 1⟩⟩ := by
  rw [linkRun_succ]
  have hstep : linkStep fullSrcCfg fullSnkCfg false true t
      ⟨⟨q, none, g + 1, a, gcfg, ob, of⟩, bus, snkMid full t0 sq sa sob sof⟩
      = some ⟨⟨q, none, g, false, gcfg, ob, of⟩, idleOut,
          ⟨none, sq ++ [⟨full, none, some t0⟩], sa, sob + (full.length : Int), sof + 1⟩⟩ := by
    simp [linkStep, sourceStep, sourceDequeue, sourceDrive, sinkStep, snkMid,
      idleOut, fullSrcCfg, fullSnkCfg, GmiiFrame.compact, GmiiFrame.length,
      any_replicate_zero]
  rw [hstep]
  simp [linkRun]

/-! ## The claims -/

/-! ### C1: driver-to-monitor round trip -/

/-- C1: for every byte payload `P`, a driver queuing `from_payload(P)` and
a monitor on the same clock, with reset never asserted and enable held
true, yield — after the frame's bytes plus one flush cycle — exactly one
received frame whose `get_payload()` equals `P` and whose `error` is
absent. -/
theorem round_trip (P : List Nat) :
    ∃ st',
      linkRun fullSrcCfg fullSnkCfg ((GmiiFrame.from_payload P).data.length + 1) 1
        ⟨GmiiSource.send GmiiSource.init (GmiiFrame.from_payload P), initBus,
          GmiiSink.init⟩
      = some st' ∧
      ∃ f, st'.snk.queue = [f] ∧ f.get_payload = P ∧ f.error = none := by
  set A : List Nat := List.replicate 6 85 ++ 213 :: P with hA
  have hdata : (GmiiFrame.from_payload P).data = 85 :: A := by
    rw [hA]
    simp [GmiiFrame.from_payload, GmiiFrame.ETH_PREAMBLE, List.replicate_succ]
  have hstate : GmiiSource.send GmiiSource.init (GmiiFrame.from_payload P)
      = ⟨[⟨85 :: A, none, none⟩], none, 0, false, 12, (A.length : Int) + 1, 1⟩ := by
    simp [GmiiSource.send, GmiiSource.init, GmiiFrame.copy, GmiiFrame.length, hdata]
    simp [GmiiFrame.from_payload]
  have h1 := linkRun_frame 85 A none [] false 12 ((A.length : Int) + 1) 1 initBus
    1 [] false 0 0
  rw [show postSrc [] true 12 ((((A.length : Int)) + 1) - ((A.length : Int) + 1)) (1 - 1)
      = ⟨[], none, 11 + 1, true, 12, 0, 0⟩ by unfold postSrc; norm_num] at h1
  have h2 := linkRun_flush (85 :: A) (1 + (A.length + 1)) 1 11 [] true 12 0 0
    (driveOut ((85 :: A).getLast (List.cons_ne_nil 85 A))) [] false 0 0
  have h12 := linkRun_add h1 h2
  refine ⟨⟨⟨[], none, 11, false, 12, 0, 0⟩, idleOut,
      ⟨none, [] ++ [⟨85 :: A, none, some 1⟩], false, 0 + ((85 :: A).length : Int),
        0 + 1⟩⟩, ?_, ⟨85 :: A, none, some 1⟩, rfl, ?_, rfl⟩
  · rw [hstate]
    rw [show (GmiiFrame.from_payload P).data.length + 1 = (A.length + 1) + 1 by
      rw [hdata]
      simp]
    exact h12
  · show (85 :: A).drop 8 = P
    rw [hA]
    rfl

/-! ### C2: back-to-back frames at gap 0 -/

/-- C2 counterexample: with gap configured 0 and the two one-byte frames
`[5]` and `[9]` queued back-to-back, the cycle immediately after frame 1's
last byte has valid DE-asserted (`max(ifg, 1)` forces one idle cycle), and
frame 2's first byte only appears one cycle later — the claimed
no-intervening-idle-cycle back-to-back behaviour does not occur. -/
theorem gap_zero_cex :
    sourceRunTrace fullSrcCfg 3
      (GmiiSource.send (GmiiSource.send { GmiiSource.init with ifg := 0 }
        ⟨[5], none, none⟩) ⟨[9], none, none⟩, initBus)
    = some (⟨[], none, 1, true, 0, 0, 0⟩, ⟨9, 0, 1⟩,
        [⟨5, 0, 1⟩, ⟨0, 0, 0⟩, ⟨9, 0, 1⟩]) ∧
    (⟨0, 0, 0⟩ : BusState).en = 0 ∧ (⟨5, 0, 1⟩ : BusState).en = 1 :=
  ⟨rfl, rfl, rfl⟩

/-- C2 amended: with configured gap 0 and two queued frames, exactly ONE
cycle with valid de-asserted intervenes between frame 1's last byte and
frame 2's first byte: the driver loads the gap countdown with
`max(ifg, 1)`, so a configured gap of 0 still frees the bus for one
cycle. -/
theorem gap_zero_single_idle (a0 : Nat) (A : List Nat) (b0 : Nat) (B : List Nat) :
    ∃ s',
      sourceRunTrace fullSrcCfg ((a0 :: A).length + 2)
        (GmiiSource.send (GmiiSource.send { GmiiSource.init with ifg := 0 }
          ⟨a0 :: A, none, none⟩) ⟨b0 :: B, none, none⟩, initBus)
      = some (s', driveOut b0,
          (a0 :: A).map driveOut ++ [idleOut] ++ [driveOut b0]) ∧
    idleOut.en = 0 := by
  have hstate : GmiiSource.send (GmiiSource.send { GmiiSource.init with ifg := 0 }
        ⟨a0 :: A, none, none⟩) ⟨b0 :: B, none, none⟩
      = ⟨[⟨a0 :: A, none, none⟩, ⟨b0 :: B, none, none⟩], none, 0, false, 0,
          ((A.length : Int) + 1) + ((B.length : Int) + 1), 2⟩ := by
    simp [GmiiSource.send, GmiiSource.init, GmiiFrame.copy, GmiiFrame.length]
  have h1 := sourceRunTrace_frame a0 A none [⟨b0 :: B, none, none⟩] false 0
    (((A.length : Int) + 1) + ((B.length : Int) + 1)) 2 initBus
  rw [show postSrc [⟨b0 :: B, none, none⟩] true 0
        ((((A.length : Int) + 1) + ((B.length : Int) + 1)) - ((A.length : Int) + 1)) (2 - 1)
      = ⟨[⟨b0 :: B, none, none⟩], none, 1, true, 0, (B.length : Int) + 1, 1⟩ by
    unfold postSrc
    norm_num] at h1
  have h2 := sourceRunTrace_gap 1 (by omega) [⟨b0 :: B, none, none⟩] true 0
    ((B.length : Int) + 1) 1 (driveOut ((a0 :: A).getLast (List.cons_ne_nil a0 A)))
  obtain ⟨s3, h3⟩ := sourceRunTrace_start b0 B none [] false 0
    ((B.length : Int) + 1) 1 idleOut
  have h23 := sourceRunTrace_add h2 h3
  have h123 := sourceRunTrace_add h1 h23
  refine ⟨s3, ?_, rfl⟩
  rw [hstate]
  rw [show (a0 :: A).length + 2 = (A.length + 1) + (1 + 1) by
    simp only [List.length_cons]]
  rw [h123]
  simp

/-! ### C3: queue occupancy bookkeeping -/

/-- C3: at every point of any interleaving of `send`, `recv`, the driver's
internal dequeue and the monitor's internal enqueue (the latter two both
happen inside clock-cycle steps), each queue's `queue_occupancy_bytes`
equals the summed lengths of the frames it holds and its
`queue_occupancy_frames` equals their number. -/
theorem queue_occupancy_invariant (ops : List QOp) (st' : LinkState)
    (h : applyOps ops ⟨GmiiSource.init, initBus, GmiiSink.init⟩ = some st') :
    linkOccInv st' := by
  have hgen : ∀ (l : List QOp) (st st1 : LinkState), linkOccInv st →
      applyOps l st = some st1 → linkOccInv st1 := by
    intro l
    induction l with
    | nil =>
        intro st st1 hinv hap
        cases hap
        exact hinv
    | cons op rest ih =>
        intro st st1 hinv hap
        unfold applyOps at hap
        cases hop : applyOp op st with
        | none =>
            rw [hop] at hap
            cases hap
        | some stm =>
            rw [hop] at hap
            exact ih stm st1 (applyOp_occInv hop hinv) hap
  exact hgen ops _ st' ⟨⟨rfl, rfl⟩, ⟨rfl, rfl⟩⟩ h

/-- C3 witness: a concrete interleaving — send two frames, run three
cycles, receive one frame — keeps the counters consistent. -/
theorem queue_occupancy_invariant_witness :
    applyOps [QOp.send ⟨[1, 2, 3], none, none⟩, QOp.step false true 1,
        QOp.send ⟨[9], none, none⟩, QOp.step false true 2, QOp.step false true 3,
        QOp.recv] ⟨GmiiSource.init, initBus, GmiiSink.init⟩
      = some ⟨⟨[⟨[9], none, none⟩], none, 12, true, 12, 1, 1⟩, ⟨3, 0, 1⟩,
          ⟨some ⟨[1, 2, 3], some [0, 0, 0], some 1⟩, [], false, 0, 0⟩⟩ ∧
    linkOccInv ⟨⟨[⟨[9], none, none⟩], none, 12, true, 12, 1, 1⟩, ⟨3, 0, 1⟩,
          ⟨some ⟨[1, 2, 3], some [0, 0, 0], some 1⟩, [], false, 0, 0⟩⟩ :=
  ⟨rfl, queue_occupancy_invariant
    [QOp.send ⟨[1, 2, 3], none, none⟩, QOp.step false true 1, QOp.send ⟨[9], none, none⟩,
      QOp.step false true 2, QOp.step false true 3, QOp.recv] _ rfl⟩

/-! ### C4: normalize establishes the error-length invariant -/

/-- C4: after `normalize()` on a frame whose error is absent or a non-empty
list, the error list has exactly the data's length; a present error list is
truncated to the data length and any missing trailing entries replicate the
last error value (the entry at index `len(error)-1`); an absent error
becomes all zeros; data and timestamp are unchanged. -/
theorem normalize_spec (f : GmiiFrame)
    (h : f.error = none ∨ ∃ e, f.error = some e ∧ e ≠ []) :
    ∃ f', f.normalize = Except.ok f' ∧
      f'.data = f.data ∧ f'.rx_sim_time = f.rx_sim_time ∧
      ∃ e', f'.error = some e' ∧ e'.length = f.data.length ∧
        (f.error = none → e' = List.replicate f.data.length 0) ∧
        (∀ e, f.error = some e → ∀ i, i < f.data.length →
          e'[i]? = if i < e.length then e[i]? else e[e.length - 1]?) := by
  rcases h with h | ⟨e, he, hne⟩
  · refine ⟨{ f with error := some (List.replicate f.data.length 0) }, ?_, rfl, rfl,
      List.replicate f.data.length 0, rfl, by simp, fun _ => rfl, ?_⟩
    · simp [GmiiFrame.normalize, h]
    · intro e he' i hi
      rw [h] at he'
      cases he'
  · have hlast : e.getLast? = some (e.getLast hne) :=
      List.getLast?_eq_getLast_of_ne_nil hne
    refine ⟨{ f with error := some (e.take f.data.length ++
        List.replicate (f.data.length - e.length) (e.getLast hne)) }, ?_, rfl, rfl,
      _, rfl, ?_, ?_, ?_⟩
    · simp [GmiiFrame.normalize, he, hlast]
    · simp only [List.length_append, List.length_take, List.length_replicate]
      omega
    · intro h0
      rw [he] at h0
      cases h0
    · intro e0 he0 i hi
      rw [he] at he0
      injection he0 with he0
      subst he0
      by_cases hie : i < e.length
      · rw [if_pos hie]
        rw [List.getElem?_append_left (by simp [List.length_take]; omega)]
        rw [List.getElem?_take, if_pos hi]
      · rw [if_neg hie]
        rw [List.getElem?_append_right (by simp [List.length_take]; omega)]
        rw [List.getElem?_replicate, if_pos (by simp [List.length_take]; omega)]
        rw [← List.getLast?_eq_getElem?, hlast]

/-- C4 witness: instantiated on a frame with 3 data bytes and a 2-entry
error list whose last value 1 is replicated. -/
theorem normalize_spec_witness :
    ((⟨[10, 20, 30], some [0, 1], none⟩ : GmiiFrame).error = none ∨
      ∃ e, (⟨[10, 20, 30], some [0, 1], none⟩ : GmiiFrame).error = some e ∧ e ≠ []) ∧
    (∃ f', (⟨[10, 20, 30], some [0, 1], none⟩ : GmiiFrame).normalize = Except.ok f' ∧
      f'.data = (⟨[10, 20, 30], some [0, 1], none⟩ : GmiiFrame).data ∧
      f'.rx_sim_time = (⟨[10, 20, 30], some [0, 1], none⟩ : GmiiFrame).rx_sim_time ∧
      ∃ e', f'.error = some e' ∧
        e'.length = (⟨[10, 20, 30], some [0, 1], none⟩ : GmiiFrame).data.length ∧
        ((⟨[10, 20, 30], some [0, 1], none⟩ : GmiiFrame).error = none →
          e' = List.replicate (⟨[10, 20, 30], some [0, 1], none⟩ : GmiiFrame).data.length 0) ∧
        (∀ e, (⟨[10, 20, 30], some [0, 1], none⟩ : GmiiFrame).error = some e →
          ∀ i, i < (⟨[10, 20, 30], some [0, 1], none⟩ : GmiiFrame).data.length →
            e'[i]? = if i < e.length then e[i]? else e[e.length - 1]?)) :=
  ⟨Or.inr ⟨[0, 1], rfl, by decide⟩,
    normalize_spec ⟨[10, 20, 30], some [0, 1], none⟩ (Or.inr ⟨[0, 1], rfl, by decide⟩)⟩

/-! ### C5: inter-frame gap of G idle cycles -/

/-- C5: with configured gap `G ≥ 1`, reset de-asserted and enable held
true, two queued frames (with payloads `a0 :: A` and `b0 :: B`, errors
absent) produce the bus trace: the bytes of frame 1 with valid asserted,
then exactly `G` cycles with valid de-asserted, then the first byte of
frame 2 with valid asserted — the cycles with valid de-asserted strictly
between the two frames number exactly `G`. -/
theorem inter_frame_gap (G : Nat) (hG : 1 ≤ G) (a0 : Nat) (A : List Nat)
    (b0 : Nat) (B : List Nat) :
    ∃ s',
      sourceRunTrace fullSrcCfg ((a0 :: A).length + G + 1)
        (GmiiSource.send (GmiiSource.send { GmiiSource.init with ifg := G }
          ⟨a0 :: A, none, none⟩) ⟨b0 :: B, none, none⟩, initBus)
      = some (s', driveOut b0,
          (a0 :: A).map driveOut ++ List.replicate G idleOut ++ [driveOut b0]) ∧
    idleOut.en = 0 ∧ (∀ x, (driveOut x).en = 1) := by
  have hstate : GmiiSource.send (GmiiSource.send { GmiiSource.init with ifg := G }
        ⟨a0 :: A, none, none⟩) ⟨b0 :: B, none, none⟩
      = ⟨[⟨a0 :: A, none, none⟩, ⟨b0 :: B, none, none⟩], none, 0, false, G,
          ((A.length : Int) + 1) + ((B.length : Int) + 1), 2⟩ := by
    simp [GmiiSource.send, GmiiSource.init, GmiiFrame.copy, GmiiFrame.length]
  have h1 := sourceRunTrace_frame a0 A none [⟨b0 :: B, none, none⟩] false G
    (((A.length : Int) + 1) + ((B.length : Int) + 1)) 2 initBus
  have hmax : max G 1 = G := Nat.max_eq_left hG
  rw [show postSrc [⟨b0 :: B, none, none⟩] true G
        ((((A.length : Int) + 1) + ((B.length : Int) + 1)) - ((A.length : Int) + 1)) (2 - 1)
      = ⟨[⟨b0 :: B, none, none⟩], none, G, true, G, (B.length : Int) + 1, 1⟩ by
    unfold postSrc
    rw [hmax]
    norm_num] at h1
  have h2 := sourceRunTrace_gap G hG [⟨b0 :: B, none, none⟩] true G
    ((B.length : Int) + 1) 1 (driveOut ((a0 :: A).getLast (List.cons_ne_nil a0 A)))
  obtain ⟨s3, h3⟩ := sourceRunTrace_start b0 B none [] false G
    ((B.length : Int) + 1) 1 idleOut
  have h23 := sourceRunTrace_add h2 h3
  have h123 := sourceRunTrace_add h1 h23
  refine ⟨s3, ?_, rfl, fun x => rfl⟩
  rw [hstate]
  rw [show (a0 :: A).length + G + 1 = (A.length + 1) + (G + 1) by
    simp only [List.length_cons]
    omega]
  rw [h123]
  rw [List.append_assoc]

/-- C5 witness: instantiated at `G = 2` with the 1-byte frames `[5]` and
`[9]`. -/
theorem inter_frame_gap_witness :
    ∃ s',
      sourceRunTrace fullSrcCfg ((5 :: ([] : List Nat)).length + 2 + 1)
        (GmiiSource.send (GmiiSource.send { GmiiSource.init with ifg := 2 }
          ⟨5 :: [], none, none⟩) ⟨9 :: [], none, none⟩, initBus)
      = some (s', driveOut 9,
          (5 :: ([] : List Nat)).map driveOut ++ List.replicate 2 idleOut ++ [driveOut 9]) ∧
    idleOut.en = 0 ∧ (∀ x, (driveOut x).en = 1) :=
  inter_frame_gap 2 (by decide) 5 [] 9 []

/-! ### C6: optional bus signals -/

/-- C6 counterexample: with only the `d` signal wired (no `er`, no `en`,
no `dv`), the driver's first enabled cycle fails (`self.bus.en <= 0` with
`bus.en = None` raises `TypeError`) and the monitor's first enabled cycle
fails (`self.bus.dv.value` with `bus.dv = None` raises
`AttributeError`): neither state machine runs without a runtime
failure. -/
theorem data_only_wiring_cex :
    sourceStep ⟨false, false⟩ false true GmiiSource.init initBus = none ∧
    sinkStep ⟨false, false⟩ false true initBus 0 GmiiSink.init = none :=
  ⟨rfl, rfl⟩

/-- C6 amended: only `er` is independently optional.  With `er` absent but
the enable/data-valid signal wired, both state machines run without
failure and a frame still passes from driver to monitor (here a 2-byte
frame over 3 cycles); with neither `en` nor `dv` wired, the very first
enabled cycle of either machine raises. -/
theorem er_only_optional :
    linkRun ⟨false, true⟩ ⟨false, true⟩ 3 1
      ⟨GmiiSource.send GmiiSource.init ⟨[1, 2], none, none⟩, initBus, GmiiSink.init⟩
    = some ⟨⟨[], none, 11, false, 12, 0, 0⟩, ⟨0, 0, 0⟩,
        ⟨none, [⟨[1, 2], none, some 1⟩], false, 2, 1⟩⟩ :=
  rfl

/-! ### C7: compact/normalize inverse-ish -/

/-- C7: `compact()` on a frame whose error markers are all zero sets the
error to absent and changes nothing else; `normalize()` on an absent-error
frame reconstructs an all-zero error list of the current data length. -/
theorem compact_normalize_inverse :
    (∀ (f : GmiiFrame) (e : List Nat), f.error = some e → (∀ x ∈ e, x = 0) →
      f.compact = Except.ok { f with error := none }) ∧
    (∀ f : GmiiFrame, f.error = none →
      f.normalize = Except.ok { f with error := some (List.replicate f.data.length 0) }) := by
  constructor
  · intro f e he hz
    have hfalse : (e.any fun x => decide (x ≠ 0)) = false := by
      rw [List.any_eq_false]
      intro x hx
      simpa using hz x hx
    rw [GmiiFrame.compact_some f e he, hfalse]
    simp
  · intro f hf
    simp [GmiiFrame.normalize, hf]

/-- C7 witness: instantiated on a frame with all-zero error markers and on
an absent-error frame. -/
theorem compact_normalize_inverse_witness :
    (⟨[1, 2], some [0, 0], none⟩ : GmiiFrame).compact =
      Except.ok ⟨[1, 2], none, none⟩ ∧
    (⟨[1, 2], none, some 5⟩ : GmiiFrame).normalize =
      Except.ok ⟨[1, 2], some [0, 0], some 5⟩ := by
  constructor
  · exact compact_normalize_inverse.1 ⟨[1, 2], some [0, 0], none⟩ [0, 0] rfl (by decide)
  · exact compact_normalize_inverse.2 ⟨[1, 2], none, some 5⟩ rfl

/-! ### C8: the driver idle query -/

/-- C8 counterexample: start from a driver with one queued one-byte frame.
After the cycle that drives that byte, the queue is empty and no dequeued
frame has bytes remaining to drive (`frame = none`), yet `idle()` returns
false because `active` is still set for one more cycle. -/
theorem idle_lags_cex :
    sourceStep fullSrcCfg false true
      (GmiiSource.send GmiiSource.init ⟨[5], none, none⟩) initBus
    = some (⟨[], none, 12, true, 12, 0, 0⟩, ⟨5, 0, 1⟩) ∧
    GmiiSource.idle ⟨[], none, 12, true, 12, 0, 0⟩ = false :=
  ⟨rfl, rfl⟩

/-- C8 amended: `idle()` returns queue-empty AND not-`active`.  Under the
machine invariant that `active` is set whenever a frame is in flight --
an invariant every step preserves -- `idle() = true` implies the queue is
empty and no frame is mid-transmission.  The converse direction fails
only during the one-cycle lag in which `active` is still set after a
frame's last byte was driven. -/
theorem idle_implies_empty_and_done (s : SourceState) (hinv : srcActiveInv s) :
    (GmiiSource.idle s = true → s.queue = [] ∧ s.frame = none) ∧
    (∀ cfg rst en_in bus s' bus',
      sourceStep cfg rst en_in s bus = some (s', bus') → srcActiveInv s') := by
  constructor
  · intro hidle
    unfold GmiiSource.idle GmiiSource.empty at hidle
    rw [Bool.and_eq_true, List.isEmpty_iff, Bool.not_eq_true'] at hidle
    obtain ⟨hq, ha⟩ := hidle
    refine ⟨hq, ?_⟩
    by_contra hf
    rw [hinv hf] at ha
    cases ha
  · intro cfg rst en_in bus s' bus' h
    exact sourceStep_activeInv h hinv

/-- C8 amended witness: instantiated at the freshly constructed driver. -/
theorem idle_implies_empty_and_done_witness :
    (GmiiSource.idle GmiiSource.init = true →
      GmiiSource.init.queue = [] ∧ GmiiSource.init.frame = none) ∧
    (∀ cfg rst en_in bus s' bus',
      sourceStep cfg rst en_in GmiiSource.init bus = some (s', bus') →
        srcActiveInv s') :=
  idle_implies_empty_and_done GmiiSource.init (fun hf => absurd rfl hf)

/-! ### C9: compact on an absent error raises -/

/-- C9: `compact()` on a frame with absent error raises `TypeError`
(`any(None)`); it terminates normally exactly when error is present. -/
theorem compact_absent_error_raises (f : GmiiFrame) :
    (f.error = none → f.compact = Except.error PyErr.typeError) ∧
    (∀ e, f.error = some e → ∃ f', f.compact = Except.ok f') := by
  constructor
  · intro h
    exact GmiiFrame.compact_none f h
  · intro e he
    rw [GmiiFrame.compact_some f e he]
    by_cases hany : (e.any fun x => decide (x ≠ 0)) = true
    · exact ⟨f, by rw [hany]; simp⟩
    · exact ⟨{ f with error := none }, by
        simp only [Bool.not_eq_true] at hany
        rw [hany]; simp⟩

/-- C9 witness: instantiated on an absent-error frame (TypeError) and a
present-error frame (normal termination). -/
theorem compact_absent_error_raises_witness :
    (⟨[1], none, none⟩ : GmiiFrame).compact = Except.error PyErr.typeError ∧
    ∃ f', (⟨[1], some [1], none⟩ : GmiiFrame).compact = Except.ok f' :=
  ⟨(compact_absent_error_raises ⟨[1], none, none⟩).1 rfl,
    (compact_absent_error_raises ⟨[1], some [1], none⟩).2 [1] rfl⟩

/-! ### C10: normalize on an empty error list raises -/

/-- C10: `normalize()` on a frame with a present-but-empty error list and
non-empty data raises `IndexError` (it evaluates `self.error[-1]`). -/
theorem normalize_empty_error_raises (f : GmiiFrame)
    (he : f.error = some []) (hd : f.data ≠ []) :
    f.normalize = Except.error PyErr.indexError := by
  simp [GmiiFrame.normalize, he]

/-- C10 witness: a frame with data `[7]` and empty error list. -/
theorem normalize_empty_error_raises_witness :
    (⟨[7], some [], none⟩ : GmiiFrame).error = some [] ∧
    (⟨[7], some [], none⟩ : GmiiFrame).data ≠ [] ∧
    (⟨[7], some [], none⟩ : GmiiFrame).normalize = Except.error PyErr.indexError :=
  ⟨rfl, by decide, normalize_empty_error_raises ⟨[7], some [], none⟩ rfl (by decide)⟩
